import Mathlib

set_option maxRecDepth 40000

/-!
Verification of the metrics aggregation and text-exposition core of the
repository's HTTP servers (the `MetricsCollector` class of `index.php`,
repeated in the Perl variants).

The collector keeps two string-keyed maps:
  * `requestsTotal`    : joined key "method_endpoint_statusCode" ↦ integer count
  * `requestDurations` : joined key "method_endpoint" ↦ list of durations

`recordRequest` builds the joined keys, increments the counter (creating it
with value 1 when absent) and appends the duration (creating a singleton list
when absent).  `getMetrics` renders the Prometheus text exposition: header
lines for both metric families, then per counter entry one data line obtained
by re-splitting the key on the underscore with limit 3, and per duration entry
a `_count` and a `_sum` line obtained by re-splitting the key with limit 2.

PHP arrays preserve insertion order, so the maps are modelled as association
lists that append new keys at the end; durations are modelled as rationals
(the spec's "exact over rationals" reading of float accumulation).
-/

/-- Split off everything up to the first occurrence of `sep`:
`some (before, after)` when `sep` occurs, `none` otherwise.  Helper for the
`explode('_', key, limit)` / `split('_', key, limit)` calls of the source. -/
def splitFirst (sep : Char) : List Char → Option (List Char × List Char)
  | [] => none
  | c :: cs =>
    if c = sep then some ([], cs)
    else
      match splitFirst sep cs with
      | none => none
      | some (l, r) => some (c :: l, r)

/-- Limited split on a character, PHP `explode(sep, s, limit)` semantics:
at most `limit` pieces, the last piece holding the unsplit remainder. -/
def splitLimitList (sep : Char) : Nat → List Char → List (List Char)
  | 0, cs => [cs]
  | 1, cs => [cs]
  | n + 2, cs =>
    match splitFirst sep cs with
    | none => [cs]
    | some (l, r) => l :: splitLimitList sep (n + 1) r

/-- `explode(sep, s, limit)` on strings. -/
def splitLimit (sep : Char) (limit : Nat) (s : String) : List String :=
  (splitLimitList sep limit s.data).map (fun cs => String.mk cs)

/-- Unlimited split on a character (used only to talk about the lines of the
rendered output; the exposition format separates lines with a newline). -/
def splitAllAux (sep : Char) : List Char → List Char → List (List Char)
  | [], acc => [acc.reverse]
  | c :: cs, acc =>
    if c = sep then acc.reverse :: splitAllAux sep cs []
    else splitAllAux sep cs (c :: acc)

/-- The list of lines of a rendered output string. -/
def linesOf (s : String) : List String :=
  (splitAllAux '\n' s.data []).map (fun cs => String.mk cs)

/-- Decimal rendering of a rational, matching how PHP/Perl print the float
sums that occur in the exposition output: an integer prints without a decimal
point, a rational with a terminating decimal expansion prints as the shortest
such expansion (PHP's default float-to-string for these magnitudes). -/
def formatRat (q : ℚ) : String :=
  match (List.range 31).find? (fun k => q.den ∣ 10 ^ k) with
  | none => toString q.num ++ "/" ++ toString q.den
  | some 0 => toString q.num
  | some (k + 1) =>
    let scaled : ℤ := q.num * (10 : ℤ) ^ (k + 1) / (q.den : ℤ)
    let n : ℕ := scaled.natAbs
    let intPart : ℕ := n / 10 ^ (k + 1)
    let fracPart : ℕ := n % 10 ^ (k + 1)
    let fracDigits : String := toString fracPart
    let padded : String :=
      String.mk (List.replicate (k + 1 - fracDigits.data.length) '0') ++ fracDigits
    (if q.num < 0 then "-" else "") ++ toString intPart ++ "." ++ padded

/-- The in-memory metrics registry of `index.php` (class `MetricsCollector`):
`$requestsTotal` and `$requestDurations`, as insertion-ordered association
lists keyed by the joined label strings. -/
structure MetricsCollector where
  requestsTotal : List (String × ℕ)
  requestDurations : List (String × List ℚ)
deriving DecidableEq

/-- A freshly constructed collector: both maps empty. -/
def emptyCollector : MetricsCollector := ⟨[], []⟩

/-- Lookup in an insertion-ordered association list with string keys. -/
def lookupStr {α : Type} (k : String) : List (String × α) → Option α
  | [] => none
  | (k', v) :: rest => if k' = k then some v else lookupStr k rest

/-- `$a[$key] = ($a[$key] ?? 0) + 1` on a PHP array: increment in place when
the key is present, otherwise append the key with count 1. -/
def incrKey (m : List (String × ℕ)) (k : String) : List (String × ℕ) :=
  match m with
  | [] => [(k, 1)]
  | (k', v) :: rest =>
    if k' = k then (k', v + 1) :: rest else (k', v) :: incrKey rest k

/-- `$a[$key][] = $d` on a PHP array: append `d` to the list at the key,
creating a singleton list when the key is absent. -/
def pushDuration (m : List (String × List ℚ)) (k : String) (d : ℚ) :
    List (String × List ℚ) :=
  match m with
  | [] => [(k, [d])]
  | (k', ds) :: rest =>
    if k' = k then (k', ds ++ [d]) :: rest else (k', ds) :: pushDuration rest k d

/-- The joined counter key `"{method}_{endpoint}_{statusCode}"`. -/
def mkCounterKey (method endpoint : String) (statusCode : ℤ) : String :=
  method ++ "_" ++ endpoint ++ "_" ++ toString statusCode

/-- The joined duration key `"{method}_{endpoint}"`. -/
def mkDurationKey (method endpoint : String) : String :=
  method ++ "_" ++ endpoint

/-- `MetricsCollector::recordRequest($method, $endpoint, $statusCode,
$duration)` of `index.php` lines 7-19: bump the counter at the joined
counter key and push the duration at the joined duration key. -/
def recordRequest (st : MetricsCollector) (method endpoint : String)
    (statusCode : ℤ) (duration : ℚ) : MetricsCollector :=
  { requestsTotal := incrKey st.requestsTotal (mkCounterKey method endpoint statusCode)
    requestDurations :=
      pushDuration st.requestDurations (mkDurationKey method endpoint) duration }

/-- One `http_requests_total` data line: the joined key is re-split on the
underscore with limit 3 into method, endpoint and status code
(`index.php` lines 27-30). -/
def counterLine (k : String) (count : ℕ) : String :=
  let parts := splitLimit '_' 3 k
  "http_requests_total\x7bmethod=\"" ++ parts.getD 0 "" ++
    "\",endpoint=\"" ++ parts.getD 1 "" ++
    "\",status_code=\"" ++ parts.getD 2 "" ++ "\"\x7d " ++ toString count ++ "\n"

/-- The `_count` and `_sum` lines of one histogram entry: the joined key is
re-split on the underscore with limit 2 into method and endpoint; the count is
the number of stored durations and the sum their total
(`index.php` lines 35-41). -/
def durationLines (k : String) (ds : List ℚ) : String :=
  let parts := splitLimit '_' 2 k
  let count := ds.length
  let sum := ds.sum
  "http_request_duration_seconds_count\x7bmethod=\"" ++ parts.getD 0 "" ++
    "\",endpoint=\"" ++ parts.getD 1 "" ++ "\"\x7d " ++ toString count ++ "\n" ++
  "http_request_duration_seconds_sum\x7bmethod=\"" ++ parts.getD 0 "" ++
    "\",endpoint=\"" ++ parts.getD 1 "" ++ "\"\x7d " ++ formatRat sum ++ "\n"

/-- `MetricsCollector::getMetrics()` of `index.php` lines 21-44: the full
exposition text, paired with the collector state after the call (the method
only reads `$this`, so the state component is returned as received). -/
def getMetrics (st : MetricsCollector) : String × MetricsCollector :=
  let o1 := "# HELP http_requests_total Total number of HTTP requests\n" ++
    "# TYPE http_requests_total counter\n"
  let o2 := st.requestsTotal.foldl (fun acc kv => acc ++ counterLine kv.1 kv.2) o1
  let o3 := o2 ++ "# HELP http_request_duration_seconds Duration of HTTP requests in seconds\n" ++
    "# TYPE http_request_duration_seconds histogram\n"
  let o4 := st.requestDurations.foldl (fun acc kv => acc ++ durationLines kv.1 kv.2) o3
  (o4, st)

/-- One call of the record operation, as supplied by the HTTP layer. -/
structure Call where
  method : String
  endpoint : String
  status : ℤ
  duration : ℚ
deriving DecidableEq

/-- Run a sequence of record calls on a fresh collector. -/
def runCalls (calls : List Call) : MetricsCollector :=
  calls.foldl (fun st c => recordRequest st c.method c.endpoint c.status c.duration)
    emptyCollector

/-- The counter value stored at a joined key (0 when absent). -/
def countOf (st : MetricsCollector) (k : String) : ℕ :=
  (lookupStr k st.requestsTotal).getD 0

/-- The durations stored at a joined key ([] when absent). -/
def dursOf (st : MetricsCollector) (k : String) : List ℚ :=
  (lookupStr k st.requestDurations).getD []

/-! ### Lookup lemmas for the two map updates -/

theorem lookupStr_incrKey (m : List (String × ℕ)) (k k' : String) :
    lookupStr k' (incrKey m k) =
      if k = k' then some ((lookupStr k' m).getD 0 + 1) else lookupStr k' m := by
  induction m with
  | nil => simp [incrKey, lookupStr]
  | cons kv rest ih =>
    obtain ⟨a, v⟩ := kv
    by_cases hak : a = k
    · subst hak
      by_cases hk : a = k'
      · simp [incrKey, lookupStr, hk]
      · simp [incrKey, lookupStr, hk]
    · by_cases hk : a = k'
      · subst hk
        simp [incrKey, lookupStr, hak, Ne.symm hak]
      · simp [incrKey, lookupStr, hak, hk, ih]

theorem lookupStr_pushDuration (m : List (String × List ℚ)) (k k' : String) (d : ℚ) :
    lookupStr k' (pushDuration m k d) =
      if k = k' then some ((lookupStr k' m).getD [] ++ [d]) else lookupStr k' m := by
  induction m with
  | nil => simp [pushDuration, lookupStr]
  | cons kv rest ih =>
    obtain ⟨a, ds⟩ := kv
    by_cases hak : a = k
    · subst hak
      by_cases hk : a = k'
      · simp [pushDuration, lookupStr, hk]
      · simp [pushDuration, lookupStr, hk]
    · by_cases hk : a = k'
      · subst hk
        simp [pushDuration, lookupStr, hak, Ne.symm hak]
      · simp [pushDuration, lookupStr, hak, hk, ih]

/-! ### Effect of one record call on the observable state -/

theorem countOf_recordRequest (st : MetricsCollector) (m e : String) (s : ℤ)
    (d : ℚ) (k : String) :
    countOf (recordRequest st m e s d) k =
      countOf st k + (if mkCounterKey m e s = k then 1 else 0) := by
  unfold countOf recordRequest
  rw [lookupStr_incrKey]
  by_cases h : mkCounterKey m e s = k <;> simp [h]

theorem dursOf_recordRequest (st : MetricsCollector) (m e : String) (s : ℤ)
    (d : ℚ) (k : String) :
    dursOf (recordRequest st m e s d) k =
      dursOf st k ++ (if mkDurationKey m e = k then [d] else []) := by
  unfold dursOf recordRequest
  rw [lookupStr_pushDuration]
  by_cases h : mkDurationKey m e = k <;> simp [h]

/-- The single step used by `runCalls`. -/
def recordStep (st : MetricsCollector) (c : Call) : MetricsCollector :=
  recordRequest st c.method c.endpoint c.status c.duration

theorem countOf_foldl (calls : List Call) (st : MetricsCollector) (k : String) :
    countOf (calls.foldl recordStep st) k =
      countOf st k +
        (calls.filter (fun c => mkCounterKey c.method c.endpoint c.status = k)).length := by
  induction calls generalizing st with
  | nil => simp
  | cons c rest ih =>
    rw [List.foldl_cons, ih, List.filter_cons]
    by_cases h : mkCounterKey c.method c.endpoint c.status = k
    · simp only [recordStep, countOf_recordRequest, h, if_pos, decide_True,
        List.length_cons]
      omega
    · simp [recordStep, countOf_recordRequest, h]

theorem dursOf_foldl (calls : List Call) (st : MetricsCollector) (k : String) :
    dursOf (calls.foldl recordStep st) k =
      dursOf st k ++
        ((calls.filter (fun c => mkDurationKey c.method c.endpoint = k)).map
          Call.duration) := by
  induction calls generalizing st with
  | nil => simp
  | cons c rest ih =>
    rw [List.foldl_cons, ih, List.filter_cons]
    by_cases h : mkDurationKey c.method c.endpoint = k
    · simp [recordStep, dursOf_recordRequest, h]
    · simp [recordStep, dursOf_recordRequest, h]

/-! ### Presence is preserved by updates -/

theorem isSome_lookupStr_incrKey (m : List (String × ℕ)) (k key : String) :
    (lookupStr k m).isSome ≤ (lookupStr k (incrKey m key)).isSome := by
  rw [lookupStr_incrKey]
  by_cases h : key = k <;> simp [h]

theorem isSome_lookupStr_pushDuration (m : List (String × List ℚ)) (k key : String)
    (d : ℚ) :
    (lookupStr k m).isSome ≤ (lookupStr k (pushDuration m key d)).isSome := by
  rw [lookupStr_pushDuration]
  by_cases h : key = k <;> simp [h]

theorem isSome_total_foldl (calls : List Call) (st : MetricsCollector) (k : String) :
    (lookupStr k st.requestsTotal).isSome ≤
      (lookupStr k (calls.foldl recordStep st).requestsTotal).isSome := by
  induction calls generalizing st with
  | nil => simp
  | cons c rest ih =>
    rw [List.foldl_cons]
    exact le_trans (isSome_lookupStr_incrKey _ _ _) (ih (recordStep st c))

theorem isSome_durations_foldl (calls : List Call) (st : MetricsCollector) (k : String) :
    (lookupStr k st.requestDurations).isSome ≤
      (lookupStr k (calls.foldl recordStep st).requestDurations).isSome := by
  induction calls generalizing st with
  | nil => simp
  | cons c rest ih =>
    rw [List.foldl_cons]
    exact le_trans (isSome_lookupStr_pushDuration _ _ _ _) (ih (recordStep st c))

/-! ### Recovery of the labels from the limit-2 re-split -/

theorem splitFirst_not_mem (sep : Char) (l r : List Char) (h : sep ∉ l) :
    splitFirst sep (l ++ sep :: r) = some (l, r) := by
  induction l with
  | nil => simp [splitFirst]
  | cons c cs ih =>
    simp only [List.mem_cons, not_or] at h
    simp [splitFirst, Ne.symm h.1, ih h.2]

theorem splitLimitList_two (sep : Char) (l r : List Char) (h : sep ∉ l) :
    splitLimitList sep 2 (l ++ sep :: r) = [l, r] := by
  show splitLimitList sep (0 + 2) (l ++ sep :: r) = [l, r]
  rw [splitLimitList, splitFirst_not_mem sep l r h]
  rfl

theorem data_mkDurationKey (m e : String) :
    (mkDurationKey m e).data = m.data ++ '_' :: e.data := by
  cases m with
  | mk l1 =>
    cases e with
    | mk l2 =>
      show (l1 ++ ['_']) ++ l2 = l1 ++ '_' :: l2
      simp

theorem splitLimit_mkDurationKey (m e : String) (hm : '_' ∉ m.data) :
    splitLimit '_' 2 (mkDurationKey m e) = [m, e] := by
  unfold splitLimit
  rw [data_mkDurationKey, splitLimitList_two '_' m.data e.data hm]
  rfl


/-! ## The claims -/

/-- `runCalls` is the fold of the single record step over the call list. -/
theorem runCalls_eq_foldl (calls : List Call) :
    runCalls calls = calls.foldl recordStep emptyCollector := rfl

/-- The two calls below build the same joined counter key from two different
(method, endpoint, status) triples, because the method of the second call
contains the separator character. -/
def collideCalls : List Call :=
  [⟨"GET", "a_b", 200, 1⟩, ⟨"GET_a", "b", 200, 1⟩]

/-- C1 fails as stated: after `record("GET", "a_b", 200, 1)` and
`record("GET_a", "b", 200, 1)` the counter stored for the triple
("GET", "a_b", 200) — looked up at its joined key — is 2, while only one
record call carries exactly that triple; the histogram count for the pair
("GET", "a_b") is likewise 2 while only one call shares that pair. -/
theorem C1_collision_counterexample :
    countOf (runCalls collideCalls) (mkCounterKey "GET" "a_b" 200) = 2 ∧
    (collideCalls.filter (fun c =>
      decide (c.method = "GET" ∧ c.endpoint = "a_b" ∧ c.status = 200))).length = 1 ∧
    (dursOf (runCalls collideCalls) (mkDurationKey "GET" "a_b")).length = 2 ∧
    (collideCalls.filter (fun c =>
      decide (c.method = "GET" ∧ c.endpoint = "a_b"))).length = 1 := by
  decide

/-- C1 (amended): for every sequence of record calls, the counter stored at a
joined key equals the number of record calls whose (method, endpoint,
status_code) triple joins to that key, the stored duration list at a joined
(method, endpoint) key is exactly the in-order durations of the calls whose
pair joins to that key, and hence the histogram sample count equals the number
of such calls and the sample sum their exact rational sum.  (Distinct triples
that collide under underscore-joining — possible only when a method contains
the separator — share one entry.) -/
theorem C1_joined_key_accounting (calls : List Call) (k kd : String) :
    countOf (runCalls calls) k =
      (calls.filter (fun c => decide (mkCounterKey c.method c.endpoint c.status = k))).length ∧
    dursOf (runCalls calls) kd =
      (calls.filter (fun c => decide (mkDurationKey c.method c.endpoint = kd))).map
        Call.duration ∧
    (dursOf (runCalls calls) kd).length =
      (calls.filter (fun c => decide (mkDurationKey c.method c.endpoint = kd))).length ∧
    (dursOf (runCalls calls) kd).sum =
      ((calls.filter (fun c => decide (mkDurationKey c.method c.endpoint = kd))).map
        Call.duration).sum := by
  have h1 := countOf_foldl calls emptyCollector k
  have h2 := dursOf_foldl calls emptyCollector kd
  have he1 : countOf emptyCollector k = 0 := rfl
  have he2 : dursOf emptyCollector kd = [] := rfl
  rw [he1, Nat.zero_add] at h1
  rw [he2, List.nil_append] at h2
  rw [runCalls_eq_foldl]
  refine ⟨h1, h2, ?_, ?_⟩
  · rw [h2, List.length_map]
  · rw [h2]

/-- The single-record state of the endpoint-with-underscore scenario. -/
def underscoreState : MetricsCollector :=
  recordRequest emptyCollector "GET" "/api/sample_2" 200 (mkRat 1 100)

/-- C2 fails on the code: after `record("GET", "/api/sample_2", 200, 0.01)`
the rendered counter data line carries the misparsed labels
endpoint="/api/sample" and status_code="2_200" (the limit-3 underscore
re-split cuts inside the endpoint), and the line demanded by the claim, with
endpoint="/api/sample_2" and status_code="200", is absent — while the
histogram `_count` line does carry the endpoint verbatim. -/
theorem C2_underscore_counter_line_misparsed :
    "http_requests_total\x7bmethod=\"GET\",endpoint=\"/api/sample\",status_code=\"2_200\"\x7d 1"
      ∈ linesOf (getMetrics underscoreState).1 ∧
    "http_requests_total\x7bmethod=\"GET\",endpoint=\"/api/sample_2\",status_code=\"200\"\x7d 1"
      ∉ linesOf (getMetrics underscoreState).1 ∧
    "http_request_duration_seconds_count\x7bmethod=\"GET\",endpoint=\"/api/sample_2\"\x7d 1"
      ∈ linesOf (getMetrics underscoreState).1 := by
  have hstate : underscoreState =
      ⟨[("GET_/api/sample_2_200", 1)], [("GET_/api/sample_2", [mkRat 1 100])]⟩ := by
    decide
  have hs : ([mkRat 1 100] : List ℚ).sum = mkRat 1 100 := by simp
  have hd : durationLines "GET_/api/sample_2" [mkRat 1 100] =
      "http_request_duration_seconds_count\x7bmethod=\"GET\",endpoint=\"/api/sample_2\"\x7d 1\nhttp_request_duration_seconds_sum\x7bmethod=\"GET\",endpoint=\"/api/sample_2\"\x7d 0.01\n" := by
    unfold durationLines
    rw [hs]
    decide
  have hout : (getMetrics underscoreState).1 =
      "# HELP http_requests_total Total number of HTTP requests\n# TYPE http_requests_total counter\nhttp_requests_total\x7bmethod=\"GET\",endpoint=\"/api/sample\",status_code=\"2_200\"\x7d 1\n# HELP http_request_duration_seconds Duration of HTTP requests in seconds\n# TYPE http_request_duration_seconds histogram\nhttp_request_duration_seconds_count\x7bmethod=\"GET\",endpoint=\"/api/sample_2\"\x7d 1\nhttp_request_duration_seconds_sum\x7bmethod=\"GET\",endpoint=\"/api/sample_2\"\x7d 0.01\n" := by
    rw [hstate]
    simp only [getMetrics, List.foldl_cons, List.foldl_nil, hd]
    decide
  rw [hout]
  decide

/-- The state of the round-trip scenario. -/
def roundTripState : MetricsCollector :=
  runCalls [⟨"GET", "/", 200, mkRat 1 100⟩, ⟨"GET", "/", 200, mkRat 2 100⟩,
    ⟨"POST", "/post", 405, mkRat 5 1000⟩]

/-- C3: after `record("GET","/",200,0.01)`, `record("GET","/",200,0.02)` and
`record("POST","/post",405,0.005)` on a fresh registry, the rendered output
contains the counter line for (GET, /, 200) with value 2, the histogram count
line for (GET, /) with value 2, the histogram sum line for (GET, /) with value
0.03, and the counter line for (POST, /post, 405) with value 1. -/
theorem C3_round_trip_scenario :
    "http_requests_total\x7bmethod=\"GET\",endpoint=\"/\",status_code=\"200\"\x7d 2"
      ∈ linesOf (getMetrics roundTripState).1 ∧
    "http_request_duration_seconds_count\x7bmethod=\"GET\",endpoint=\"/\"\x7d 2"
      ∈ linesOf (getMetrics roundTripState).1 ∧
    "http_request_duration_seconds_sum\x7bmethod=\"GET\",endpoint=\"/\"\x7d 0.03"
      ∈ linesOf (getMetrics roundTripState).1 ∧
    "http_requests_total\x7bmethod=\"POST\",endpoint=\"/post\",status_code=\"405\"\x7d 1"
      ∈ linesOf (getMetrics roundTripState).1 := by
  have hstate : roundTripState =
      ⟨[("GET_/_200", 2), ("POST_/post_405", 1)],
       [("GET_/", [mkRat 1 100, mkRat 2 100]), ("POST_/post", [mkRat 5 1000])]⟩ := by
    decide
  have hs1 : ([mkRat 1 100, mkRat 2 100] : List ℚ).sum = mkRat 3 100 := by
    norm_num [List.sum_cons, List.sum_nil]
  have hs2 : ([mkRat 5 1000] : List ℚ).sum = mkRat 5 1000 := by simp
  have hd1 : durationLines "GET_/" [mkRat 1 100, mkRat 2 100] =
      "http_request_duration_seconds_count\x7bmethod=\"GET\",endpoint=\"/\"\x7d 2\nhttp_request_duration_seconds_sum\x7bmethod=\"GET\",endpoint=\"/\"\x7d 0.03\n" := by
    unfold durationLines
    rw [hs1]
    decide
  have hd2 : durationLines "POST_/post" [mkRat 5 1000] =
      "http_request_duration_seconds_count\x7bmethod=\"POST\",endpoint=\"/post\"\x7d 1\nhttp_request_duration_seconds_sum\x7bmethod=\"POST\",endpoint=\"/post\"\x7d 0.005\n" := by
    unfold durationLines
    rw [hs2]
    decide
  have hout : (getMetrics roundTripState).1 =
      "# HELP http_requests_total Total number of HTTP requests\n# TYPE http_requests_total counter\nhttp_requests_total\x7bmethod=\"GET\",endpoint=\"/\",status_code=\"200\"\x7d 2\nhttp_requests_total\x7bmethod=\"POST\",endpoint=\"/post\",status_code=\"405\"\x7d 1\n# HELP http_request_duration_seconds Duration of HTTP requests in seconds\n# TYPE http_request_duration_seconds histogram\nhttp_request_duration_seconds_count\x7bmethod=\"GET\",endpoint=\"/\"\x7d 2\nhttp_request_duration_seconds_sum\x7bmethod=\"GET\",endpoint=\"/\"\x7d 0.03\nhttp_request_duration_seconds_count\x7bmethod=\"POST\",endpoint=\"/post\"\x7d 1\nhttp_request_duration_seconds_sum\x7bmethod=\"POST\",endpoint=\"/post\"\x7d 0.005\n" := by
    rw [hstate]
    simp only [getMetrics, List.foldl_cons, List.foldl_nil, hd1, hd2]
    decide
  rw [hout]
  decide

/-- C4: rendering is a pure read — for every registry state, `getMetrics`
returns a string and hands back both the counter map and the duration map
exactly unchanged (the source method only reads `$this`). -/
theorem C4_render_pure_read (st : MetricsCollector) :
    (getMetrics st).2.requestsTotal = st.requestsTotal ∧
    (getMetrics st).2.requestDurations = st.requestDurations :=
  ⟨rfl, rfl⟩

/-- C5: `recordRequest` never fails and accepts its arguments verbatim — for
every method string, endpoint string (including the empty string and strings
containing the separator), integer status code and rational duration, the
counter at the joined key built from the unmodified label values is
incremented by exactly one and the unmodified duration is appended at the
joined duration key; no validation or normalization intervenes and the
operation is total. -/
theorem C5_record_total_verbatim (st : MetricsCollector) (m e : String) (s : ℤ)
    (d : ℚ) :
    countOf (recordRequest st m e s d) (mkCounterKey m e s) =
      countOf st (mkCounterKey m e s) + 1 ∧
    dursOf (recordRequest st m e s d) (mkDurationKey m e) =
      dursOf st (mkDurationKey m e) ++ [d] := by
  constructor
  · rw [countOf_recordRequest]; simp
  · rw [dursOf_recordRequest]; simp

/-- C6: rendering is idempotent — rendering, then rendering again on the state
handed back by the first call with no intervening record, yields the same
multiset of output lines (in fact the identical string). -/
theorem C6_render_idempotent (st : MetricsCollector) :
    Multiset.ofList (linesOf (getMetrics ((getMetrics st).2)).1) =
      Multiset.ofList (linesOf (getMetrics st).1) := rfl

/-- C7: on a freshly created registry, rendering returns exactly the HELP and
TYPE header lines of both metric families and no data line. -/
theorem C7_empty_render_headers_only :
    (getMetrics emptyCollector).1 =
      "# HELP http_requests_total Total number of HTTP requests\n" ++
      "# TYPE http_requests_total counter\n" ++
      "# HELP http_request_duration_seconds Duration of HTTP requests in seconds\n" ++
      "# TYPE http_request_duration_seconds histogram\n" ∧
    linesOf (getMetrics emptyCollector).1 =
      ["# HELP http_requests_total Total number of HTTP requests",
       "# TYPE http_requests_total counter",
       "# HELP http_request_duration_seconds Duration of HTTP requests in seconds",
       "# TYPE http_request_duration_seconds histogram", ""] := by
  constructor
  · rfl
  · decide

/-- C8: the registry is accumulate-only — extending any state by any sequence
of record calls with non-negative durations never decreases any counter value,
any histogram sample count or any histogram sample sum, and never removes a
counter or duration key that was present. -/
theorem C8_accumulate_only (st : MetricsCollector) (calls : List Call)
    (hd : calls.all (fun c => decide (0 ≤ c.duration)) = true) (k kd : String) :
    countOf st k ≤ countOf (calls.foldl recordStep st) k ∧
    (lookupStr k st.requestsTotal).isSome ≤
      (lookupStr k (calls.foldl recordStep st).requestsTotal).isSome ∧
    (dursOf st kd).length ≤ (dursOf (calls.foldl recordStep st) kd).length ∧
    (dursOf st kd).sum ≤ (dursOf (calls.foldl recordStep st) kd).sum ∧
    (lookupStr kd st.requestDurations).isSome ≤
      (lookupStr kd (calls.foldl recordStep st).requestDurations).isSome := by
  refine ⟨?_, isSome_total_foldl calls st k, ?_, ?_, isSome_durations_foldl calls st kd⟩
  · rw [countOf_foldl]
    exact Nat.le_add_right _ _
  · rw [dursOf_foldl, List.length_append]
    exact Nat.le_add_right _ _
  · rw [dursOf_foldl, List.sum_append]
    refine le_add_of_nonneg_right (List.sum_nonneg ?_)
    intro x hx
    obtain ⟨c, hc, hcx⟩ := List.mem_map.mp hx
    have hcall : c ∈ calls := (List.mem_filter.mp hc).1
    have := List.all_eq_true.mp hd c hcall
    rw [decide_eq_true_eq] at this
    rw [← hcx]
    exact this

/-- A concrete instance of the accumulate-only theorem: one prior request,
one further call with non-negative duration. -/
theorem C8_accumulate_only_witness :
    ([(⟨"GET", "/", 200, mkRat 2 100⟩ : Call)].all
      (fun c => decide (0 ≤ c.duration)) = true) ∧
    (countOf underscoreState "GET_/_200" ≤
      countOf ([(⟨"GET", "/", 200, mkRat 2 100⟩ : Call)].foldl recordStep
        underscoreState) "GET_/_200" ∧
    (lookupStr "GET_/_200" underscoreState.requestsTotal).isSome ≤
      (lookupStr "GET_/_200" (([(⟨"GET", "/", 200, mkRat 2 100⟩ : Call)].foldl
        recordStep underscoreState)).requestsTotal).isSome ∧
    (dursOf underscoreState "GET_/").length ≤
      (dursOf ([(⟨"GET", "/", 200, mkRat 2 100⟩ : Call)].foldl recordStep
        underscoreState) "GET_/").length ∧
    (dursOf underscoreState "GET_/").sum ≤
      (dursOf ([(⟨"GET", "/", 200, mkRat 2 100⟩ : Call)].foldl recordStep
        underscoreState) "GET_/").sum ∧
    (lookupStr "GET_/" underscoreState.requestDurations).isSome ≤
      (lookupStr "GET_/" (([(⟨"GET", "/", 200, mkRat 2 100⟩ : Call)].foldl
        recordStep underscoreState)).requestDurations).isSome) :=
  ⟨by decide,
    C8_accumulate_only underscoreState [⟨"GET", "/", 200, mkRat 2 100⟩]
      (by decide) "GET_/_200" "GET_/"⟩

/-- C10: for a recorded request whose method contains no underscore, the
histogram `_count` and `_sum` lines render the method and endpoint labels
exactly as recorded even when the endpoint contains underscores — the
duration key is re-split with limit 2, so the first underscore separates the
method from the remainder and the endpoint is recovered intact. -/
theorem C10_histogram_labels_verbatim (m e : String) (ds : List ℚ)
    (hm : '_' ∉ m.data) :
    durationLines (mkDurationKey m e) ds =
      "http_request_duration_seconds_count\x7bmethod=\"" ++ m ++
        "\",endpoint=\"" ++ e ++ "\"\x7d " ++ toString ds.length ++ "\n" ++
      "http_request_duration_seconds_sum\x7bmethod=\"" ++ m ++
        "\",endpoint=\"" ++ e ++ "\"\x7d " ++ formatRat ds.sum ++ "\n" := by
  unfold durationLines
  rw [splitLimit_mkDurationKey m e hm]
  rfl

/-- A concrete instance of the verbatim-label theorem at the
endpoint-with-underscore scenario of the spec. -/
theorem C10_histogram_labels_verbatim_witness :
    ('_' ∉ "GET".data) ∧
    durationLines (mkDurationKey "GET" "/api/sample_2") [mkRat 1 100] =
      "http_request_duration_seconds_count\x7bmethod=\"GET\",endpoint=\"/api/sample_2\"\x7d 1\nhttp_request_duration_seconds_sum\x7bmethod=\"GET\",endpoint=\"/api/sample_2\"\x7d 0.01\n" := by
  refine ⟨by decide, ?_⟩
  rw [C10_histogram_labels_verbatim "GET" "/api/sample_2" [mkRat 1 100] (by decide)]
  have hs : ([mkRat 1 100] : List ℚ).sum = mkRat 1 100 := by simp
  rw [hs]
  decide
